import Mathlib

/-!
Shallow embedding of the M.E.R.C.Y companion bot core (mood-aware prompt
construction and conversational memory pipeline) and proofs about it.

Source files embedded:
- `ollama_client.py` — `OllamaClient`: per-user conversation history with a
  10-turn cap, `generate_response` / `generate_with_memory` around a single
  HTTP call to the Ollama backend.
- `memory_manager.py` — `MemoryManager.detect_mood`: keyword-scored mood
  classification over the taxonomy `MOODS` of `bot_config.py`.
- `main.py` — the memory-digest assembly inside `handle_message`.

The outbound HTTP call is modelled by an explicit `HttpResult` argument that
enumerates the outcomes the Python code distinguishes (status + body,
connection error, timeout, other exception); everything else is translated
directly from the Python source.
-/

namespace Mercy

/-- Turn of a conversation: one entry of the per-user history list that
`OllamaClient.add_to_conversation` stores (a dict with keys role/content). -/
structure Turn where
  role : String
  content : String
  deriving DecidableEq, Repr

/-- State of an `OllamaClient` instance: its `model` field and the
`conversation_history` dict from user id to list of turns; a user id that is
not a key of the dict is modelled as `none`. -/
structure Client where
  model : String
  conversation_history : Int → Option (List Turn)

/-- Python slice `l[-n:]`: the last `n` elements of `l` (all of `l` when it
has at most `n` elements). -/
def lastN (n : Nat) (l : List α) : List α :=
  l.drop (l.length - n)

/-- OllamaClient.get_conversation (ollama_client.py, line 19):
`self.conversation_history.get(user_id, [])`. -/
def get_conversation (c : Client) (user_id : Int) : List Turn :=
  (c.conversation_history user_id).getD []

/-- OllamaClient.add_to_conversation (ollama_client.py, lines 23-35): ensure
the key exists, append the new role/content dict, then keep only the last 10
entries when the list exceeds 10. -/
def add_to_conversation (c : Client) (user_id : Int) (role content : String) : Client :=
  let cur := (c.conversation_history user_id).getD []
  let appended := cur ++ [⟨role, content⟩]
  let kept := if appended.length > 10 then lastN 10 appended else appended
  { c with conversation_history := fun u => if u = user_id then some kept else c.conversation_history u }

/-- OllamaClient.clear_conversation (ollama_client.py, lines 37-40): reset the
entry to the empty list when the key is present, otherwise do nothing. -/
def clear_conversation (c : Client) (user_id : Int) : Client :=
  match c.conversation_history user_id with
  | some _ =>
    { c with conversation_history := fun u => if u = user_id then some [] else c.conversation_history u }
  | none => c

/-- Body of an HTTP response as `generate_response` consumes it.
`wellFormed content` models a JSON object whose `message.content` field is the
given optional string (`none` when absent, in which case the chained
`result.get("message", {}).get("content", "")` yields the empty string);
`malformed excMsg` models a body on which `response.json()` or the `get` chain
raises an exception whose text is `excMsg`. -/
inductive ReplyBody where
  | wellFormed (content : Option String)
  | malformed (excMsg : String)
  deriving DecidableEq, Repr

/-- Outcome of the single `session.post` call inside `generate_response`: an
HTTP response with status code and body, a connection failure
(`aiohttp.ClientConnectorError`), a timeout (`asyncio.TimeoutError`), or any
other exception carrying its message text. -/
inductive HttpResult where
  | response (status : Nat) (body : ReplyBody)
  | connectorError
  | timeoutError
  | otherError (excMsg : String)
  deriving DecidableEq, Repr

/-- Fixed generation options of the request payload (ollama_client.py,
lines 59-65). -/
structure GenOptions where
  temperature : Rat
  num_predict : Nat
  num_ctx : Nat
  top_k : Nat
  top_p : Rat
  deriving DecidableEq, Repr

/-- JSON body of the request `generate_response` posts to the backend
(ollama_client.py, lines 55-66). -/
structure RequestPayload where
  model : String
  messages : List Turn
  stream : Bool
  options : GenOptions
  deriving DecidableEq, Repr

/-- Message list and payload construction of `generate_response`
(ollama_client.py, lines 44-66): system prompt, then the stored history, then
the current user message. -/
def buildPayload (c : Client) (user_id : Int) (message system_prompt : String) : RequestPayload :=
  let messages := [Turn.mk "system" system_prompt]
  let messages := messages ++ get_conversation c user_id
  let messages := messages ++ [Turn.mk "user" message]
  { model := c.model
    messages := messages
    stream := false
    options := { temperature := 0.8, num_predict := 500, num_ctx := 4096, top_k := 40, top_p := 0.9 } }

/-- Result of one `generate_response` invocation: the client state after the
call, the returned string, and the list of requests posted to the backend
during the invocation. -/
structure GenResult where
  client : Client
  reply : String
  requests : List RequestPayload

/-- OllamaClient.generate_response (ollama_client.py, lines 42-88). On status
200 with a parsable body it extracts `message.content` (empty string when
absent), appends the user turn and then the assistant turn, and returns the
content; on a non-200 status it returns a fallback naming the status; a
connection error, a timeout, and any other exception (including a body on
which JSON extraction raises) return their fallback strings and leave the
history untouched. -/
def generate_response (c : Client) (user_id : Int) (message system_prompt : String)
    (result : HttpResult) : GenResult :=
  let payload := buildPayload c user_id message system_prompt
  match result with
  | .response status body =>
    if status = 200 then
      match body with
      | .wellFormed content =>
        let bot_response := content.getD ""
        let c1 := add_to_conversation c user_id "user" message
        let c2 := add_to_conversation c1 user_id "assistant" bot_response
        ⟨c2, bot_response, [payload]⟩
      | .malformed excMsg =>
        ⟨c, "Oops! Something went wrong: " ++ excMsg, [payload]⟩
    else
      ⟨c, "Sorry, I got a " ++ toString status ++ " error. Let me try again?", [payload]⟩
  | .connectorError =>
    ⟨c, "I can't reach my brain right now! Is Ollama running? Try: ollama serve", [payload]⟩
  | .timeoutError =>
    ⟨c, "I'm taking too long to think... maybe we should talk about something simpler?", [payload]⟩
  | .otherError excMsg =>
    ⟨c, "Oops! Something went wrong: " ++ excMsg, [payload]⟩

/-- OllamaClient.generate_with_memory (ollama_client.py, lines 90-98): append
the memory context under a fixed header when it is non-empty (Python
truthiness of the string), then delegate to `generate_response`. -/
def generate_with_memory (c : Client) (user_id : Int) (message system_prompt : String)
    (memory_context : String) (result : HttpResult) : GenResult :=
  let enhanced_prompt :=
    if memory_context ≠ "" then
      system_prompt ++ "\n\nCONTEXT ABOUT YOUR FRIEND:\n" ++ memory_context
    else
      system_prompt
  generate_response c user_id message enhanced_prompt result

/-- Classifier of the one outcome on which `generate_response` commits turns
to the history: transport status 200 with a body whose JSON extraction
succeeds. -/
def isCommittedResult : HttpResult → Bool
  | .response status (.wellFormed _) => status == 200
  | _ => false

/-- Sample client used to instantiate universally quantified theorems. -/
def client0 : Client :=
  ⟨"qwen2.5", fun _ => none⟩

/-- Helper: a string with a non-empty left part stays non-empty under append. -/
theorem string_append_ne_empty (a b : String) (h : 0 < a.length) : a ++ b ≠ "" := by
  intro he
  have hz : (a ++ b).length = 0 := by rw [he]; rfl
  rw [String.length_append] at hz
  omega

/-- Helper: on a non-200 status, `generate_response` returns the status
fallback and the unchanged client, for either body shape. -/
theorem generate_response_non200 (c : Client) (user_id : Int)
    (message system_prompt : String) (status : Nat) (body : ReplyBody)
    (hs : status ≠ 200) :
    generate_response c user_id message system_prompt (.response status body) =
      ⟨c, "Sorry, I got a " ++ toString status ++ " error. Let me try again?",
        [buildPayload c user_id message system_prompt]⟩ := by
  cases body <;> simp [generate_response, hs]

/-- C1: whenever the outbound model call fails in any way (connection error,
timeout, non-200 status, malformed payload, or any other exception),
`generate_response` leaves the whole conversation history unchanged (the
client state is returned as-is, hence every user's history is unchanged) and
returns a non-empty fallback string. -/
theorem c1_failure_preserves_history (c : Client) (user_id : Int)
    (message system_prompt : String) (result : HttpResult)
    (h : isCommittedResult result = false) :
    (generate_response c user_id message system_prompt result).client = c ∧
    (generate_response c user_id message system_prompt result).reply ≠ "" := by
  cases result with
  | response status body =>
    by_cases hs : status = 200
    · subst hs
      cases body with
      | wellFormed content => simp [isCommittedResult] at h
      | malformed excMsg =>
        refine ⟨rfl, ?_⟩
        exact string_append_ne_empty "Oops! Something went wrong: " excMsg (by decide)
    · rw [generate_response_non200 c user_id message system_prompt status body hs]
      exact ⟨rfl, string_append_ne_empty "Sorry, I got a " _ (by decide)⟩
  | connectorError =>
    refine ⟨rfl, ?_⟩
    show ("I can't reach my brain right now! Is Ollama running? Try: ollama serve" : String) ≠ ""
    decide
  | timeoutError =>
    refine ⟨rfl, ?_⟩
    show ("I'm taking too long to think... maybe we should talk about something simpler?" : String) ≠ ""
    decide
  | otherError excMsg =>
    exact ⟨rfl, string_append_ne_empty "Oops! Something went wrong: " excMsg (by decide)⟩

/-- C1 witness: concrete instantiation at a connection error. -/
theorem c1_failure_preserves_history_witness :
    (generate_response client0 1 "hi" "prompt" HttpResult.connectorError).client = client0 ∧
    (generate_response client0 1 "hi" "prompt" HttpResult.connectorError).reply ≠ "" :=
  c1_failure_preserves_history client0 1 "hi" "prompt" HttpResult.connectorError rfl

/-- C8: every invocation of `generate_response` issues exactly one request,
whose body carries the system prompt message, then the stored history, then
the user message, with streaming disabled and exactly the fixed generation
parameters temperature 0.8, num_predict 500, num_ctx 4096, top_k 40,
top_p 0.9. -/
theorem c8_request_payload (c : Client) (user_id : Int)
    (message system_prompt : String) (result : HttpResult) :
    (generate_response c user_id message system_prompt result).requests =
      [{ model := c.model
         messages := [Turn.mk "system" system_prompt] ++ get_conversation c user_id
           ++ [Turn.mk "user" message]
         stream := false
         options := { temperature := 0.8, num_predict := 500, num_ctx := 4096,
                      top_k := 40, top_p := 0.9 } }] := by
  cases result with
  | response status body =>
    by_cases hs : status = 200
    · subst hs
      cases body <;> simp [generate_response, buildPayload]
    · cases body <;> simp [generate_response, buildPayload, hs]
  | connectorError => rfl
  | timeoutError => rfl
  | otherError excMsg => rfl

/-- C10: calling `generate_with_memory` with an empty memory context is the
same computation as calling `generate_response` directly: same reply, same
state update, same issued request. -/
theorem c10_empty_memory_equiv (c : Client) (user_id : Int)
    (message system_prompt : String) (result : HttpResult) :
    generate_with_memory c user_id message system_prompt "" result =
      generate_response c user_id message system_prompt result := by
  simp [generate_with_memory]

/-- Python substring test `needle in haystack` on character lists. -/
def substrIn (needle : List Char) : List Char → Bool
  | [] => needle.isEmpty
  | c :: rest => List.isPrefixOf needle (c :: rest) || substrIn needle rest

/-- C6 counterexample: the claim that a failing generation call never returns
internal error text verbatim is false — for a generic exception the code
returns the fixed prefix followed by `str(e)`, so the exception message
"Connection reset by peer" appears verbatim in the user-facing reply. -/
theorem c6_counterexample :
    (generate_response client0 1 "hi" "prompt"
        (HttpResult.otherError "Connection reset by peer")).reply =
      "Oops! Something went wrong: Connection reset by peer" ∧
    substrIn "Connection reset by peer".data
      ((generate_response client0 1 "hi" "prompt"
        (HttpResult.otherError "Connection reset by peer")).reply).data = true :=
  ⟨rfl, by decide⟩

/-- C6 amended: the connection and timeout fallbacks are fixed strings, and
the non-200 fallback embeds only the numeric status code into fixed phrasing;
however, for any other exception — including a malformed 200 payload — the
returned string is the fixed prefix "Oops! Something went wrong: " followed by
the exception's message verbatim. -/
theorem c6_fallback_amended (c : Client) (user_id : Int) (message system_prompt : String) :
    (generate_response c user_id message system_prompt HttpResult.connectorError).reply =
      "I can't reach my brain right now! Is Ollama running? Try: ollama serve" ∧
    (generate_response c user_id message system_prompt HttpResult.timeoutError).reply =
      "I'm taking too long to think... maybe we should talk about something simpler?" ∧
    (∀ status body, status ≠ 200 →
      (generate_response c user_id message system_prompt (.response status body)).reply =
        "Sorry, I got a " ++ toString status ++ " error. Let me try again?") ∧
    (∀ excMsg, (generate_response c user_id message system_prompt (.otherError excMsg)).reply =
        "Oops! Something went wrong: " ++ excMsg) ∧
    (∀ excMsg,
      (generate_response c user_id message system_prompt
        (.response 200 (.malformed excMsg))).reply =
        "Oops! Something went wrong: " ++ excMsg) := by
  refine ⟨rfl, rfl, ?_, fun _ => rfl, fun _ => rfl⟩
  intro status body hs
  rw [generate_response_non200 c user_id message system_prompt status body hs]

/-- C6 amended witness: concrete instantiation at an HTTP 500 response. -/
theorem c6_fallback_amended_witness :
    (generate_response client0 1 "hi" "prompt"
        (HttpResult.response 500 (.wellFormed (some "x")))).reply =
      "Sorry, I got a 500 error. Let me try again?" := by
  have h := (c6_fallback_amended client0 1 "hi" "prompt").2.2.1 500
    (.wellFormed (some "x")) (by decide)
  rw [h]
  rfl

/-- Sample client whose history dict holds an entry for user 1. -/
def client1 : Client :=
  ⟨"qwen2.5", fun u => if u = 1 then some [Turn.mk "user" "hi"] else none⟩

/-- C9: `get_conversation` returns the empty list for an unknown user, and
`clear_conversation` is the identity there (idempotent on unknown users); for
a known user, clearing leaves the entry present holding the empty list, a
subsequent get returns the empty list, and a subsequent append yields a fresh
one-element history. -/
theorem c9_get_clear_semantics (c : Client) (user_id : Int) (role content : String) :
    (c.conversation_history user_id = none →
      get_conversation c user_id = [] ∧ clear_conversation c user_id = c) ∧
    (c.conversation_history user_id ≠ none →
      (clear_conversation c user_id).conversation_history user_id = some [] ∧
      get_conversation (clear_conversation c user_id) user_id = [] ∧
      get_conversation
          (add_to_conversation (clear_conversation c user_id) user_id role content) user_id =
        [Turn.mk role content]) := by
  constructor
  · intro h
    refine ⟨?_, ?_⟩
    · simp [get_conversation, h]
    · simp [clear_conversation, h]
  · intro h
    cases hop : c.conversation_history user_id with
    | none => exact absurd hop h
    | some l =>
      have hc : clear_conversation c user_id =
          { c with conversation_history :=
              fun u => if u = user_id then some [] else c.conversation_history u } := by
        simp [clear_conversation, hop]
      rw [hc]
      refine ⟨by simp, by simp [get_conversation], ?_⟩
      simp [add_to_conversation, get_conversation, lastN]

/-- C9 witness: concrete instantiation at a client that knows user 1. -/
theorem c9_get_clear_semantics_witness :
    (clear_conversation client1 1).conversation_history 1 = some [] ∧
    get_conversation (clear_conversation client1 1) 1 = [] ∧
    get_conversation (add_to_conversation (clear_conversation client1 1) 1 "user" "again") 1 =
      [Turn.mk "user" "again"] :=
  (c9_get_clear_semantics client1 1 "user" "again").2 (by decide)

/-- Helper: `lastN n` keeps a list of length at most `n` unchanged. -/
theorem lastN_of_le (n : Nat) (l : List α) (h : l.length ≤ n) : lastN n l = l := by
  unfold lastN
  have hz : l.length - n = 0 := by omega
  rw [hz, List.drop_zero]

/-- Helper: taking the last `n` of a list whose first part was already cut to
its last `n` elements gives the same result as cutting the whole list. -/
theorem lastN_append_lastN (n : Nat) (x ts : List α) :
    lastN n (lastN n x ++ ts) = lastN n (x ++ ts) := by
  simp only [lastN, List.length_append, List.length_drop,
    List.drop_append_eq_append_drop, List.drop_drop]
  have h1 : x.length - n + (x.length - (x.length - n) + ts.length - n) =
      x.length + ts.length - n := by omega
  have h2 : x.length - (x.length - n) + ts.length - n - (x.length - (x.length - n)) =
      x.length + ts.length - n - x.length := by omega
  rw [h1, h2]

/-- Helper: the last `n` elements of an append land entirely in the second
part when that part has at least `n` elements. -/
theorem lastN_append_of_le (n : Nat) (a ts : List α) (h : n ≤ ts.length) :
    lastN n (a ++ ts) = lastN n ts := by
  unfold lastN
  rw [List.drop_append_eq_append_drop, List.length_append]
  have h2 : a.drop (a.length + ts.length - n) = [] :=
    List.drop_eq_nil_of_le (by omega)
  rw [h2, List.nil_append]
  congr 1
  omega

/-- Helper: one `add_to_conversation` leaves the user's stored list equal to
the last 10 elements of the old list with the new turn appended. -/
theorem get_conversation_add (c : Client) (user_id : Int) (role content : String) :
    get_conversation (add_to_conversation c user_id role content) user_id =
      lastN 10 (get_conversation c user_id ++ [Turn.mk role content]) := by
  simp only [add_to_conversation, get_conversation, if_true, eq_self_iff_true,
    Option.getD_some]
  split
  · rfl
  · exact (lastN_of_le 10 _ (by omega)).symm

/-- Sequence of appends to one user's conversation, in order. -/
def appendAll (c : Client) (user_id : Int) (turns : List Turn) : Client :=
  turns.foldl (fun cl t => add_to_conversation cl user_id t.role t.content) c

/-- Helper: after any non-empty sequence of appends, the stored list is the
last 10 elements of the previous list followed by the appended turns. -/
theorem get_appendAll (user_id : Int) :
    ∀ (turns : List Turn) (c : Client), turns ≠ [] →
      get_conversation (appendAll c user_id turns) user_id =
        lastN 10 (get_conversation c user_id ++ turns)
  | [], _, h => absurd rfl h
  | t :: ts, c, _ => by
    have hstep : appendAll c user_id (t :: ts) =
        appendAll (add_to_conversation c user_id t.role t.content) user_id ts := rfl
    cases ts with
    | nil =>
      rw [hstep]
      show get_conversation (add_to_conversation c user_id t.role t.content) user_id =
        lastN 10 (get_conversation c user_id ++ [t])
      exact get_conversation_add c user_id t.role t.content
    | cons t' ts' =>
      rw [hstep,
        get_appendAll user_id (t' :: ts') (add_to_conversation c user_id t.role t.content)
          (by simp),
        get_conversation_add]
      show lastN 10 (lastN 10 (get_conversation c user_id ++ [t]) ++ (t' :: ts')) =
        lastN 10 (get_conversation c user_id ++ (t :: t' :: ts'))
      rw [lastN_append_lastN, List.append_assoc]
      rfl

/-- C2: appending 11 or more turns to one user's conversation leaves exactly
the last 10 appended turns in their append order (FIFO eviction of the
oldest), with length exactly 10; and after any single append, the stored
length never exceeds 10. -/
theorem c2_history_cap (c : Client) (user_id : Int) (turns : List Turn) :
    (11 ≤ turns.length →
      get_conversation (appendAll c user_id turns) user_id = lastN 10 turns ∧
      (get_conversation (appendAll c user_id turns) user_id).length = 10) ∧
    ∀ role content,
      (get_conversation (add_to_conversation c user_id role content) user_id).length ≤ 10 := by
  constructor
  · intro h
    have hne : turns ≠ [] := by
      intro he
      rw [he] at h
      simp at h
    have hget := get_appendAll user_id turns c hne
    rw [lastN_append_of_le 10 _ _ (by omega)] at hget
    refine ⟨hget, ?_⟩
    rw [hget]
    unfold lastN
    rw [List.length_drop]
    omega
  · intro role content
    rw [get_conversation_add]
    unfold lastN
    rw [List.length_drop]
    omega

/-- C2 witness: concrete instantiation with 11 appended turns. -/
theorem c2_history_cap_witness :
    get_conversation (appendAll client0 1 (List.replicate 11 (Turn.mk "user" "x"))) 1 =
      lastN 10 (List.replicate 11 (Turn.mk "user" "x")) ∧
    (get_conversation (appendAll client0 1 (List.replicate 11 (Turn.mk "user" "x"))) 1).length =
      10 :=
  (c2_history_cap client0 1 (List.replicate 11 (Turn.mk "user" "x"))).1 (by decide)

/-- C3: on a status-200 response with a parsable body, `generate_response`
returns `message.content` (the empty string when the field is absent, without
failing), touches no other user's history, and leaves the calling user's
history equal to the old history plus the user turn and then the assistant
turn (under the 10-element cap). -/
theorem c3_success_commit (c : Client) (user_id : Int) (message system_prompt : String)
    (content : Option String) :
    (generate_response c user_id message system_prompt
        (.response 200 (.wellFormed content))).reply = content.getD "" ∧
    (∀ u, u ≠ user_id →
      (generate_response c user_id message system_prompt
        (.response 200 (.wellFormed content))).client.conversation_history u =
        c.conversation_history u) ∧
    get_conversation
        (generate_response c user_id message system_prompt
          (.response 200 (.wellFormed content))).client user_id =
      lastN 10 (get_conversation c user_id ++
        [Turn.mk "user" message, Turn.mk "assistant" (content.getD "")]) := by
  refine ⟨rfl, ?_, ?_⟩
  · intro u hu
    simp [generate_response, add_to_conversation, hu]
  · have hcl : (generate_response c user_id message system_prompt
        (.response 200 (.wellFormed content))).client =
        add_to_conversation (add_to_conversation c user_id "user" message) user_id
          "assistant" (content.getD "") := rfl
    rw [hcl, get_conversation_add, get_conversation_add, lastN_append_lastN,
      List.append_assoc]
    rfl

/-- C3 witness: concrete instantiation at a fresh client and a reply "ok". -/
theorem c3_success_commit_witness :
    (generate_response client0 1 "hello" "sys"
        (.response 200 (.wellFormed (some "ok")))).reply = "ok" ∧
    (generate_response client0 1 "hello" "sys"
        (.response 200 (.wellFormed (some "ok")))).client.conversation_history 2 =
      client0.conversation_history 2 ∧
    get_conversation
        (generate_response client0 1 "hello" "sys"
          (.response 200 (.wellFormed (some "ok")))).client 1 =
      lastN 10 (get_conversation client0 1 ++
        [Turn.mk "user" "hello", Turn.mk "assistant" "ok"]) :=
  ⟨(c3_success_commit client0 1 "hello" "sys" (some "ok")).1,
    (c3_success_commit client0 1 "hello" "sys" (some "ok")).2.1 2 (by decide),
    (c3_success_commit client0 1 "hello" "sys" (some "ok")).2.2⟩

/-- Fact row as `MemoryManager.get_facts` returns it (memory_manager.py,
lines 380-391): the stored content plus its creation stamp; the snapshot list
is ordered by `created_at DESC`, most recent first. Creation stamps are
modelled as naturals. -/
structure Fact where
  content : String
  created_at : Nat
  deriving DecidableEq, Repr

/-- Task row as `MemoryManager.get_tasks` returns it (memory_manager.py,
lines 286-299); `handle_message` requests the ones with `completed=False`. -/
structure Task where
  description : String
  completed : Bool
  deriving DecidableEq, Repr

/-- Memory digest assembly inside `handle_message` (main.py, lines 382-395):
start from the empty string; when the facts snapshot is non-empty, emit the
facts header and one bullet per element of `facts[-3:]`; when the
pending-tasks snapshot is non-empty, append the tasks header and one bullet
per element of `tasks[:3]`. -/
def build_memory_context (facts : List Fact) (tasks : List Task) : String :=
  let memory_context := ""
  let memory_context :=
    if facts ≠ [] then
      "I remember:\n" ++
        String.join ((lastN 3 facts).map (fun f => "- " ++ f.content ++ "\n"))
    else memory_context
  let memory_context :=
    if tasks ≠ [] then
      memory_context ++ "\nCurrent tasks:\n" ++
        String.join ((tasks.take 3).map (fun t => "- " ++ t.description ++ "\n"))
    else memory_context
  memory_context

/-- C7: the prompt actually used by `generate_with_memory` is the system
prompt with the digest appended under the fixed header exactly when the
digest is non-empty; with an empty digest the call degenerates to
`generate_response` on the system prompt alone, and the digest built from
empty facts and tasks snapshots is the empty string (no dangling headers). -/
theorem c7_effective_prompt (c : Client) (user_id : Int) (message system_prompt : String)
    (memory_context : String) (facts : List Fact) (tasks : List Task) (result : HttpResult) :
    (memory_context ≠ "" →
      generate_with_memory c user_id message system_prompt memory_context result =
        generate_response c user_id message
          (system_prompt ++ "\n\nCONTEXT ABOUT YOUR FRIEND:\n" ++ memory_context) result) ∧
    (memory_context = "" →
      generate_with_memory c user_id message system_prompt memory_context result =
        generate_response c user_id message system_prompt result) ∧
    (facts = [] → tasks = [] → build_memory_context facts tasks = "") := by
  refine ⟨?_, ?_, ?_⟩
  · intro h
    simp [generate_with_memory, h]
  · intro h
    simp [generate_with_memory, h]
  · intro hf ht
    subst hf
    subst ht
    rfl

/-- C7 witness: concrete instantiation with a non-empty and an empty digest. -/
theorem c7_effective_prompt_witness :
    generate_with_memory client0 1 "hi" "sys" "I remember:\n- x\n" HttpResult.timeoutError =
      generate_response client0 1 "hi"
        ("sys" ++ "\n\nCONTEXT ABOUT YOUR FRIEND:\n" ++ "I remember:\n- x\n")
        HttpResult.timeoutError ∧
    build_memory_context [] [] = "" :=
  ⟨(c7_effective_prompt client0 1 "hi" "sys" "I remember:\n- x\n" [] []
      HttpResult.timeoutError).1 (by decide),
    (c7_effective_prompt client0 1 "hi" "sys" "I remember:\n- x\n" [] []
      HttpResult.timeoutError).2.2 rfl rfl⟩

/-- Sample facts snapshot, ordered most-recent-first as `get_facts` returns
it (`ORDER BY created_at DESC`). -/
def exFacts : List Fact :=
  [⟨"likes chess", 4⟩, ⟨"has a cat", 3⟩, ⟨"plays guitar", 2⟩, ⟨"born in May", 1⟩]

/-- Digest as the claim describes it: the facts section renders the 3
most-recently-created facts, which on a most-recent-first snapshot are the
first 3 elements. Stated from the claim, to be compared with the code. -/
def memory_digest_claimed (facts : List Fact) (tasks : List Task) : String :=
  (if facts ≠ [] then
    "I remember:\n" ++ String.join ((facts.take 3).map (fun f => "- " ++ f.content ++ "\n"))
  else "") ++
  (if tasks ≠ [] then
    "\nCurrent tasks:\n" ++
      String.join ((tasks.take 3).map (fun t => "- " ++ t.description ++ "\n"))
  else "")

/-- C5 counterexample: on a most-recent-first snapshot of four facts, the
digest built by `handle_message` renders `facts[-3:]` — the three OLDEST
facts — and omits the most recent fact entirely, contradicting the claim that
the digest holds the 3 most-recently-created facts. -/
theorem c5_counterexample :
    List.Pairwise (fun a b => b.created_at ≤ a.created_at) exFacts ∧
    build_memory_context exFacts [] =
      "I remember:\n- has a cat\n- plays guitar\n- born in May\n" ∧
    build_memory_context exFacts [] ≠ memory_digest_claimed exFacts [] ∧
    substrIn "likes chess".data (build_memory_context exFacts []).data = false :=
  ⟨by decide, by decide, by decide, by decide⟩

/-- C5 amended: the digest's facts section contains at most 3 facts, namely
the LAST 3 elements of the snapshot — on a most-recent-first snapshot these
are the 3 least-recently-created facts — each rendered as a bullet of its
full content; the tasks section contains at most the first 3 pending tasks in
the snapshot's return order. -/
theorem c5_digest_amended (facts : List Fact) (tasks : List Task) :
    build_memory_context facts tasks =
      (if facts = [] then ""
       else "I remember:\n" ++
         String.join ((lastN 3 facts).map (fun f => "- " ++ f.content ++ "\n"))) ++
      (if tasks = [] then ""
       else "\nCurrent tasks:\n" ++
         String.join ((tasks.take 3).map (fun t => "- " ++ t.description ++ "\n"))) ∧
    (lastN 3 facts).length ≤ 3 ∧
    (tasks.take 3).length ≤ 3 ∧
    (List.Pairwise (fun a b => b.created_at ≤ a.created_at) facts →
      ∀ f ∈ lastN 3 facts, ∀ g ∈ facts.take (facts.length - 3),
        f.created_at ≤ g.created_at) := by
  refine ⟨?_, ?_, ?_, ?_⟩
  · by_cases hf : facts = [] <;> by_cases ht : tasks = [] <;>
      simp [build_memory_context, hf, ht, String.append_assoc]
  · unfold lastN
    rw [List.length_drop]
    omega
  · simp [List.length_take]
  · intro hp f hf g hg
    have hsplit := List.take_append_drop (facts.length - 3) facts
    rw [← hsplit] at hp
    have h3 := (List.pairwise_append.mp hp).2.2
    exact h3 g hg f hf

/-- Sample pending task. -/
def exTask : Task :=
  ⟨"water the plants", false⟩

/-- C5 amended witness: concrete instantiation at the sample snapshot. -/
theorem c5_digest_amended_witness :
    build_memory_context exFacts [exTask] =
      (if exFacts = [] then ""
       else "I remember:\n" ++
         String.join ((lastN 3 exFacts).map (fun f => "- " ++ f.content ++ "\n"))) ++
      (if ([exTask] : List Task) = [] then ""
       else "\nCurrent tasks:\n" ++
         String.join (([exTask].take 3).map (fun t => "- " ++ t.description ++ "\n"))) ∧
    (⟨"born in May", 1⟩ : Fact).created_at ≤ (⟨"likes chess", 4⟩ : Fact).created_at :=
  ⟨(c5_digest_amended exFacts [exTask]).1,
    (c5_digest_amended exFacts [exTask]).2.2.2 (by decide) ⟨"born in May", 1⟩ (by decide)
      ⟨"likes chess", 4⟩ (by decide)⟩

/-- MOODS taxonomy (bot_config.py, lines 24-60): each mood paired with its
trigger keywords, in declaration order (Python dicts preserve insertion
order). -/
def MOODS : List (String × List String) :=
  [("caring", ["sad", "upset", "cry", "hurt", "pain", "lonely", "miss"]),
   ("playful", ["joke", "fun", "laugh", "haha", "lol", "game", "play"]),
   ("serious", ["important", "serious", "problem", "issue", "decision", "help"]),
   ("supportive", ["try", "goal", "dream", "achieve", "study", "work", "motivate"]),
   ("protective", ["scared", "danger", "worried", "anxiety", "fear", "unsafe"]),
   ("calm", ["stressed", "tired", "anxiety", "relax", "calm", "breathe"]),
   ("happy", ["happy", "excited", "celebrate", "good news", "success", "won"])]

/-- Score of one mood (memory_manager.py, line 214):
`sum(1 for trigger in triggers if trigger in message_lower)` — the number of
trigger keywords occurring as substrings of the lower-cased message, each
counted once. -/
def triggerScore (message_lower : List Char) (triggers : List String) : Nat :=
  (triggers.filter (fun t => substrIn t.data message_lower)).length

/-- Scores of all moods in declaration order for a message. -/
def scoredMoods (message : String) : List (String × Nat) :=
  MOODS.map (fun p => (p.1, triggerScore (message.data.map Char.toLower) p.2))

/-- One step of Python `max(mood_scores, key=mood_scores.get)`: scanning left
to right, the current best is replaced only by a strictly larger score, so
the first maximal element wins. -/
def pyMaxStep (best y : String × Nat) : String × Nat :=
  if best.2 < y.2 then y else best

/-- Selection part of `detect_mood`: keep the positive scores in declaration
order (the dict build with `if score > 0`), then take the max-by-score key,
or "caring" when the dict is empty. -/
def pySelect (scores : List (String × Nat)) : String :=
  match scores.filter (fun p => 0 < p.2) with
  | [] => "caring"
  | x :: xs => (xs.foldl pyMaxStep x).1

/-- MemoryManager.detect_mood (memory_manager.py, lines 207-218). -/
def detect_mood (message : String) : String :=
  let message_lower := message.data.map Char.toLower
  let mood_scores :=
    (MOODS.map (fun p => (p.1, triggerScore message_lower p.2))).filter (fun p => 0 < p.2)
  match mood_scores with
  | [] => "caring"
  | x :: xs => (xs.foldl pyMaxStep x).1

/-- Maximum score appearing in a scored list (0 for the empty list). -/
def listMax (l : List (String × Nat)) : Nat :=
  (l.map Prod.snd).foldr max 0

/-- Selection rule as the claim states it: "caring" when every mood scores 0,
otherwise the mood declared earliest in taxonomy order among those achieving
the maximum score. -/
def specSelect (scores : List (String × Nat)) : String :=
  if listMax scores = 0 then "caring"
  else ((scores.find? (fun p => p.2 == listMax scores)).map Prod.fst).getD "caring"

/-- Mood detection as the claim describes it. -/
def detectMoodSpec (message : String) : String :=
  specSelect (scoredMoods message)

/-- Bridge: `detect_mood` is the selection rule applied to the scored
taxonomy. -/
theorem detect_mood_eq_pySelect (message : String) :
    detect_mood message = pySelect (scoredMoods message) := rfl

/-- Helper: cons unfolding of `listMax`. -/
theorem listMax_cons (x : String × Nat) (l : List (String × Nat)) :
    listMax (x :: l) = max x.2 (listMax l) := rfl

/-- Helper: every score in the list is bounded by `listMax`. -/
theorem mem_le_listMax : ∀ {l : List (String × Nat)} {p : String × Nat},
    p ∈ l → p.2 ≤ listMax l := by
  intro l
  induction l with
  | nil => intro p hp; cases hp
  | cons x xs ih =>
    intro p hp
    rw [listMax_cons]
    rcases List.mem_cons.mp hp with h | h
    · subst h; omega
    · have := ih h; omega

/-- Helper: dropping the zero scores does not change the maximum. -/
theorem listMax_filter_pos : ∀ l : List (String × Nat),
    listMax (l.filter (fun p => 0 < p.2)) = listMax l := by
  intro l
  induction l with
  | nil => rfl
  | cons x xs ih =>
    by_cases hx : 0 < x.2
    · rw [List.filter_cons_of_pos (by simpa using hx), listMax_cons, listMax_cons, ih]
    · rw [List.filter_cons_of_neg (by simpa using hx), ih, listMax_cons]
      omega

/-- Helper: `find?` is unchanged when the predicates agree on the list's
members. -/
theorem find?_congr_mem (p q : α → Bool) :
    ∀ {l : List α}, (∀ a ∈ l, p a = q a) → l.find? p = l.find? q := by
  intro l
  induction l with
  | nil => intro _; rfl
  | cons x xs ih =>
    intro h
    rw [List.find?_cons, List.find?_cons, h x (List.mem_cons_self x xs)]
    cases hq : q x with
    | false => exact ih (fun a ha => h a (List.mem_cons.mpr (Or.inr ha)))
    | true => rfl

/-- Helper: `find?` ignores a filter whose predicate is implied by the search
predicate. -/
theorem find?_filter_of_imp (p q : α → Bool) (h : ∀ a, p a = true → q a = true) :
    ∀ l : List α, (l.filter q).find? p = l.find? p := by
  intro l
  induction l with
  | nil => rfl
  | cons x xs ih =>
    by_cases hq : q x = true
    · rw [List.filter_cons_of_pos hq, List.find?_cons, List.find?_cons]
      cases hp : p x with
      | false => exact ih
      | true => rfl
    · have hp : p x = false := by
        cases hpx : p x with
        | false => rfl
        | true => exact absurd (h x hpx) hq
      rw [List.filter_cons_of_neg hq, List.find?_cons, hp]
      exact ih

/-- Helper: for a value bounded by `mx`, testing equality with `mx` is the
same as testing that it reaches `mx`. -/
theorem beq_eq_decide_le_of_le (a mx : Nat) (h : a ≤ mx) :
    (a == mx) = decide (mx ≤ a) := by
  cases hb : (a == mx) with
  | true =>
    have ha : a = mx := by simpa using hb
    subst ha
    simp
  | false =>
    have ha : a ≠ mx := by simpa using hb
    have h2 : ¬ mx ≤ a := by omega
    simp [h2]

/-- Helper: the left fold with `pyMaxStep` returns the first element of the
list achieving the maximal score. -/
theorem foldl_pyMaxStep_find? :
    ∀ (xs : List (String × Nat)) (x : String × Nat),
      List.find? (fun p => decide (listMax (x :: xs) ≤ p.2)) (x :: xs) =
        some (xs.foldl pyMaxStep x) := by
  intro xs
  induction xs with
  | nil =>
    intro x
    rw [List.find?_cons]
    have hd : decide (listMax [x] ≤ x.2) = true :=
      decide_eq_true (by
        rw [listMax_cons]
        have hz : listMax ([] : List (String × Nat)) = 0 := rfl
        omega)
    rw [hd]
    rfl
  | cons y ys ih =>
    intro x
    by_cases hxy : x.2 < y.2
    · have hstep : pyMaxStep x y = y := if_pos hxy
      have hM : listMax (x :: y :: ys) = listMax (y :: ys) := by
        rw [listMax_cons, listMax_cons]
        omega
      have hpx : decide (listMax (x :: y :: ys) ≤ x.2) = false := by
        apply decide_eq_false
        rw [hM, listMax_cons]
        omega
      rw [List.find?_cons, hpx]
      show List.find? (fun p => decide (listMax (x :: y :: ys) ≤ p.2)) (y :: ys) =
        some (List.foldl pyMaxStep (pyMaxStep x y) ys)
      rw [hstep, hM]
      exact ih y
    · have hstep : pyMaxStep x y = x := if_neg hxy
      have hM : listMax (x :: ys) = listMax (x :: y :: ys) := by
        rw [listMax_cons, listMax_cons, listMax_cons]
        omega
      have ihx := ih x
      rw [hM] at ihx
      show List.find? (fun p => decide (listMax (x :: y :: ys) ≤ p.2)) (x :: y :: ys) =
        some (List.foldl pyMaxStep (pyMaxStep x y) ys)
      rw [hstep]
      by_cases hx : listMax (x :: y :: ys) ≤ x.2
      · have hpx : decide (listMax (x :: y :: ys) ≤ x.2) = true := decide_eq_true hx
        rw [List.find?_cons, hpx]
        rw [List.find?_cons, hpx] at ihx
        exact ihx
      · have hpx : decide (listMax (x :: y :: ys) ≤ x.2) = false := decide_eq_false hx
        have hpy : decide (listMax (x :: y :: ys) ≤ y.2) = false :=
          decide_eq_false (by omega)
        rw [List.find?_cons, hpx, List.find?_cons, hpy]
        rw [List.find?_cons, hpx] at ihx
        exact ihx

/-- Helper: the selection the code performs agrees with the selection rule
the claim states, over every scored list. -/
theorem pySelect_eq_specSelect (scores : List (String × Nat)) :
    pySelect scores = specSelect scores := by
  cases hfil : scores.filter (fun p => 0 < p.2) with
  | nil =>
    have hps : pySelect scores =
        (match scores.filter (fun p => 0 < p.2) with
         | [] => "caring"
         | x :: xs => (xs.foldl pyMaxStep x).1) := rfl
    rw [hps, hfil]
    have hmx : listMax scores = 0 := by
      rw [← listMax_filter_pos scores, hfil]
      rfl
    unfold specSelect
    rw [if_pos hmx]
  | cons x xs =>
    have hps : pySelect scores =
        (match scores.filter (fun p => 0 < p.2) with
         | [] => "caring"
         | x :: xs => (xs.foldl pyMaxStep x).1) := rfl
    rw [hps, hfil]
    have hmem : x ∈ scores.filter (fun p => 0 < p.2) := by
      rw [hfil]
      exact List.mem_cons_self x xs
    have hxpos : 0 < x.2 := by simpa using List.of_mem_filter hmem
    have hxle : x.2 ≤ listMax scores := mem_le_listMax (List.mem_of_mem_filter hmem)
    have hmxpos : 0 < listMax scores := by omega
    unfold specSelect
    rw [if_neg (by omega)]
    rw [find?_congr_mem (fun p => p.2 == listMax scores)
      (fun p => decide (listMax scores ≤ p.2))
      (fun a ha => beq_eq_decide_le_of_le a.2 (listMax scores) (mem_le_listMax ha))]
    rw [← find?_filter_of_imp (fun p => decide (listMax scores ≤ p.2))
      (fun p => decide (0 < p.2))
      (fun a ha => decide_eq_true (by
        have h1 : listMax scores ≤ a.2 := of_decide_eq_true ha
        omega)) scores]
    rw [hfil]
    have hmxeq : listMax (x :: xs) = listMax scores := by
      rw [← hfil, listMax_filter_pos]
    rw [← hmxeq, foldl_pyMaxStep_find? xs x]
    rfl

/-- C4: `detect_mood` scores each mood of the taxonomy by counting its
trigger keywords occurring as substrings of the lower-cased message (each
counted once) and returns the mood declared earliest in taxonomy order among
those achieving the maximum score, or "caring" when every mood scores 0. -/
theorem c4_detect_mood_first_max (message : String) :
    detect_mood message = detectMoodSpec message := by
  rw [detect_mood_eq_pySelect]
  exact pySelect_eq_specSelect (scoredMoods message)

end Mercy
